import Mathlib

/-!
Verification of the transceiver-management core of `rtp_transceiver.rs`:
the direction state machine (`set_sending_track`, `stop`), codec-preference
negotiation (`set_codec_preferences`, `get_codecs`), mid assignment
(`set_mid`), and the pool-matching algorithms (`find_by_mid`,
`satisfy_type_and_direction`).

Rust methods of shape `(&mut self, ...) -> Result<()>` are embedded as pure
functions `RTPTransceiver → ... → Except Error Unit × RTPTransceiver`
returning the call's result together with the post-state.  External
collaborators whose code is outside this file (direction enum, codec type,
codec parameters, the fuzzy search, the media engine, sender/receiver
handles) are modelled from the spec, as noted on each definition.
-/

namespace RTPT

/-- Modelled from the spec: the direction enum (`rtp_transceiver_direction.rs`
is not part of this core's source).  The spec lists Sendrecv, Sendonly,
Recvonly and Inactive; `Unspecified` stands for "any other value", which the
spec mentions for `satisfy_type_and_direction` and which the source's
catch-all match arm handles. -/
inductive RTPTransceiverDirection where
  | Sendrecv
  | Sendonly
  | Recvonly
  | Inactive
  | Unspecified
deriving DecidableEq, Repr

/-- Modelled from the spec: media kind (audio | video), immutable after
construction (`rtp_codec.rs` is not part of this core's source). -/
inductive RTPCodecType where
  | Audio
  | Video
deriving DecidableEq, Repr

/-- Modelled from the spec: codec parameters are an opaque record for this
core — none of its operations inspect their fields, they only pass whole
values to the fuzzy search and compare lists of them.  A numeric tag keeps
distinct codecs distinguishable in examples. -/
structure RTPCodecParameters where
  tag : Nat
deriving DecidableEq, Repr

/-- Modelled from the spec: the fuzzy-match tier.  The spec fixes `None`
("no match") and leaves the finer-grained levels unspecified; `Loose` and
`Exact` stand for those finer levels. -/
inductive CodecMatch where
  | None
  | Loose
  | Exact
deriving DecidableEq, Repr

/-- Modelled from the spec: `codec_parameters_fuzzy_search` lives in
`rtp_codec.rs`, outside this core's source.  It compares a candidate codec
against a catalog list and yields a resolved codec together with a match
tier; this core depends only on that interface shape, so it is kept
abstract as a function the theorems quantify over. -/
def FuzzySearch : Type :=
  RTPCodecParameters → List RTPCodecParameters → RTPCodecParameters × CodecMatch

/-- Modelled from the spec: a local track handle is opaque to this core;
only its presence or absence (`Option`) is ever inspected. -/
structure TrackLocal where
  tag : Nat
deriving DecidableEq, Repr

/-- Modelled from the spec: errors surfaced by this core, plus
`subResource` for errors propagated verbatim from a sender's or receiver's
own `stop`/`replace_track`. -/
inductive Error where
  | ErrRTPTransceiverCodecUnsupported
  | ErrRTPTransceiverCannotChangeMid
  | ErrRTPTransceiverSetSendingInvalidState
  | subResource (code : Nat)
deriving DecidableEq, Repr

/-- Modelled from the spec: a sender handle is opaque; the core only calls
`stop()` and `replace_track()` on it, so it is represented by the outcomes
those calls would return ( `Except.ok ()` for success, `Except.error e`
for a failure propagated verbatim). -/
structure RTPSender where
  tag : Nat
  stopResult : Except Error Unit
  replaceTrackResult : Except Error Unit

/-- Modelled from the spec: a receiver handle is opaque; the core only
calls `stop()` on it. -/
structure RTPReceiver where
  tag : Nat
  stopResult : Except Error Unit

/-- Modelled from the spec: the media engine holds the engine-wide list of
supported codecs per media kind (audio/video); this core only calls
`get_codecs_by_kind` on it. -/
structure MediaEngine where
  audioCodecs : List RTPCodecParameters
  videoCodecs : List RTPCodecParameters

/-- Modelled from the spec: `get_codecs_by_kind` returns the engine-wide
supported-codec list for the given kind. -/
def MediaEngine.get_codecs_by_kind (me : MediaEngine) (kind : RTPCodecType) :
    List RTPCodecParameters :=
  match kind with
  | RTPCodecType.Audio => me.audioCodecs
  | RTPCodecType.Video => me.videoCodecs

/-- The transceiver record, from the source's struct: mid, optional sender,
optional receiver, direction (an `AtomicU8` in the source, a plain field
here under the single-mutator discipline the spec states), user-provided
codec preferences, the stopped flag, the kind, and the media engine. -/
structure RTPTransceiver where
  mid : String
  sender : Option RTPSender
  receiver : Option RTPReceiver
  direction : RTPTransceiverDirection
  codecs : List RTPCodecParameters
  stopped : Bool
  kind : RTPCodecType
  media_engine : MediaEngine

/-- `RTPTransceiver::new`: mid starts empty, stopped starts false, the
remaining fields are the constructor arguments. -/
def RTPTransceiver.new (receiver : Option RTPReceiver) (sender : Option RTPSender)
    (direction : RTPTransceiverDirection) (kind : RTPCodecType)
    (codecs : List RTPCodecParameters) (media_engine : MediaEngine) : RTPTransceiver :=
  { mid := ""
    sender := sender
    receiver := receiver
    direction := direction
    codecs := codecs
    stopped := false
    kind := kind
    media_engine := media_engine }

/-- `set_direction`: store a new direction (an atomic store in the source). -/
def set_direction (t : RTPTransceiver) (d : RTPTransceiverDirection) : RTPTransceiver :=
  { t with direction := d }

/-- `set_mid`: fails with `ErrRTPTransceiverCannotChangeMid` when the current
mid is non-empty, otherwise stores the given mid. -/
def set_mid (t : RTPTransceiver) (mid : String) : Except Error Unit × RTPTransceiver :=
  if ¬ t.mid = "" then
    (Except.error Error.ErrRTPTransceiverCannotChangeMid, t)
  else
    (Except.ok (), { t with mid := mid })

/-- The loop body shared by both pool-matching functions in the source:
scan the list in order, and at the first element satisfying `p` return it
together with the list with that element removed (`Vec::remove(i)`); when no
element satisfies `p` return `none` and the list unchanged. -/
def remove_first (p : α → Prop) [DecidablePred p] : List α → Option α × List α
  | [] => (none, [])
  | x :: xs =>
    if p x then (some x, xs)
    else
      let r := remove_first p xs
      (r.1, x :: r.2)

/-- `find_by_mid`: linear scan of the pool in order; return and remove the
first transceiver whose mid equals the target. -/
def find_by_mid (mid : String) (local_transceivers : List RTPTransceiver) :
    Option RTPTransceiver × List RTPTransceiver :=
  remove_first (fun t => t.mid = mid) local_transceivers

/-- The validation loop of `set_codec_preferences`: for each candidate in
order, fuzzy-match it against the catalog list and return
`ErrRTPTransceiverCodecUnsupported` at the first candidate whose match tier
is `CodecMatch.None` (the source re-fetches the catalog on every iteration;
the call is pure, so fetching it once is the same list). -/
def check_codec_support (fz : FuzzySearch) (catalog : List RTPCodecParameters) :
    List RTPCodecParameters → Except Error Unit
  | [] => Except.ok ()
  | c :: rest =>
    if (fz c catalog).2 = CodecMatch.None then
      Except.error Error.ErrRTPTransceiverCodecUnsupported
    else
      check_codec_support fz catalog rest

/-- `set_codec_preferences`: validate every candidate against the media
engine's per-kind catalog; on the first unmatched candidate return the
unsupported-codec error without touching the stored list, otherwise store
the input sequence as the new preference list. -/
def set_codec_preferences (fz : FuzzySearch) (t : RTPTransceiver)
    (codecs : List RTPCodecParameters) : Except Error Unit × RTPTransceiver :=
  match check_codec_support fz (t.media_engine.get_codecs_by_kind t.kind) codecs with
  | Except.error e => (Except.error e, t)
  | Except.ok _ => (Except.ok (), { t with codecs := codecs })

/-- The filtering loop of `get_codecs`: for each stored preferred codec in
order, fuzzy-match it against the catalog; push the resolved codec when the
tier is not `CodecMatch.None`, drop it otherwise. -/
def filter_codecs (fz : FuzzySearch) (catalog : List RTPCodecParameters) :
    List RTPCodecParameters → List RTPCodecParameters
  | [] => []
  | c :: rest =>
    let r := fz c catalog
    if ¬ r.2 = CodecMatch.None then r.1 :: filter_codecs fz catalog rest
    else filter_codecs fz catalog rest

/-- `get_codecs`: when the stored preference list is empty return the media
engine's per-kind catalog; otherwise re-resolve each stored preference
against the catalog, dropping the unmatched ones.  Takes `&self` in the
source: it mutates nothing, which the embedding makes structural. -/
def get_codecs (fz : FuzzySearch) (t : RTPTransceiver) : List RTPCodecParameters :=
  let media_engine_codecs := t.media_engine.get_codecs_by_kind t.kind
  if t.codecs.isEmpty then media_engine_codecs
  else filter_codecs fz media_engine_codecs t.codecs

/-- `set_sending_track`: call `replace_track(track)` on a present sender and
propagate its failure with no other mutation; then, when the track is
`none`, clear the sender field; then read the direction and apply the
transition table, in the source's branch order, returning
`ErrRTPTransceiverSetSendingInvalidState` from the final catch-all. -/
def set_sending_track (t : RTPTransceiver) (track : Option TrackLocal) :
    Except Error Unit × RTPTransceiver :=
  let replace_result : Except Error Unit :=
    match t.sender with
    | some s => s.replaceTrackResult
    | none => Except.ok ()
  match replace_result with
  | Except.error e => (Except.error e, t)
  | Except.ok _ =>
    let t1 := if track = none then { t with sender := none } else t
    let direction := t1.direction
    if ¬ track = none ∧ direction = RTPTransceiverDirection.Recvonly then
      (Except.ok (), set_direction t1 RTPTransceiverDirection.Sendrecv)
    else if ¬ track = none ∧ direction = RTPTransceiverDirection.Inactive then
      (Except.ok (), set_direction t1 RTPTransceiverDirection.Sendonly)
    else if track = none ∧ direction = RTPTransceiverDirection.Sendrecv then
      (Except.ok (), set_direction t1 RTPTransceiverDirection.Recvonly)
    else if ¬ track = none ∧
        (direction = RTPTransceiverDirection.Sendonly ∨
         direction = RTPTransceiverDirection.Sendrecv) then
      -- The source's explicit no-op branch (remote-initiated negotiation).
      (Except.ok (), t1)
    else if track = none ∧ direction = RTPTransceiverDirection.Sendonly then
      (Except.ok (), set_direction t1 RTPTransceiverDirection.Inactive)
    else
      (Except.error Error.ErrRTPTransceiverSetSendingInvalidState, t1)

/-- `set_sender`: store the given sender, then run the `set_sending_track`
transition with the given track. -/
def set_sender (t : RTPTransceiver) (sender : Option RTPSender)
    (track : Option TrackLocal) : Except Error Unit × RTPTransceiver :=
  set_sending_track { t with sender := sender } track

/-- A call made by `stop` on a sub-resource, recorded so that the theorems
can speak about which sub-resource stops were attempted and in what order. -/
inductive StopEvent where
  | senderStop
  | receiverStop
deriving DecidableEq, Repr

/-- `stop`: request `stop()` on a present sender, propagating its failure
before the receiver is touched; then request `stop()` on a present
receiver, propagating its failure; only after both succeed store
`Inactive`.  The result carries the post-state and the ordered list of
sub-resource stops attempted. -/
def stop (t : RTPTransceiver) :
    Except Error Unit × RTPTransceiver × List StopEvent :=
  let sender_step : Except Error Unit × List StopEvent :=
    match t.sender with
    | some s => (s.stopResult, [StopEvent.senderStop])
    | none => (Except.ok (), [])
  match sender_step with
  | (Except.error e, evs) => (Except.error e, t, evs)
  | (Except.ok _, evs) =>
    let receiver_step : Except Error Unit × List StopEvent :=
      match t.receiver with
      | some r => (r.stopResult, [StopEvent.receiverStop])
      | none => (Except.ok (), [])
    match receiver_step with
    | (Except.error e, evs2) => (Except.error e, t, evs ++ evs2)
    | (Except.ok _, evs2) =>
      (Except.ok (), set_direction t RTPTransceiverDirection.Inactive, evs ++ evs2)

/-- The direction-preference closure of `satisfy_type_and_direction`: the
ordered list of acceptable local directions for a remote direction. -/
def get_preferred_directions (remote_direction : RTPTransceiverDirection) :
    List RTPTransceiverDirection :=
  match remote_direction with
  | RTPTransceiverDirection.Sendrecv =>
    [RTPTransceiverDirection.Recvonly, RTPTransceiverDirection.Sendrecv]
  | RTPTransceiverDirection.Sendonly => [RTPTransceiverDirection.Recvonly]
  | RTPTransceiverDirection.Recvonly =>
    [RTPTransceiverDirection.Sendonly, RTPTransceiverDirection.Sendrecv]
  | _ => []

/-- The inner-loop condition of `satisfy_type_and_direction`: empty mid,
matching kind, exactly the tried direction. -/
def satisfies_candidate (remote_kind : RTPCodecType) (d : RTPTransceiverDirection)
    (t : RTPTransceiver) : Prop :=
  t.mid = "" ∧ t.kind = remote_kind ∧ d = t.direction

instance (remote_kind : RTPCodecType) (d : RTPTransceiverDirection) :
    DecidablePred (satisfies_candidate remote_kind d) := fun t => by
  unfold satisfies_candidate
  infer_instance

/-- The outer loop of `satisfy_type_and_direction` over the direction
preference order: for each tried direction scan the pool in order for a
candidate; the pool is only mutated by the removal on success. -/
def satisfy_loop (remote_kind : RTPCodecType) (pool : List RTPTransceiver) :
    List RTPTransceiverDirection → Option RTPTransceiver × List RTPTransceiver
  | [] => (none, pool)
  | d :: ds =>
    let r := remove_first (satisfies_candidate remote_kind d) pool
    match r.1 with
    | some t => (some t, r.2)
    | none => satisfy_loop remote_kind pool ds

/-- `satisfy_type_and_direction`: try each locally-acceptable direction in
preference order and, within each, scan the pool in insertion order;
return and remove the first candidate, or `none` with the pool unchanged. -/
def satisfy_type_and_direction (remote_kind : RTPCodecType)
    (remote_direction : RTPTransceiverDirection)
    (local_transceivers : List RTPTransceiver) :
    Option RTPTransceiver × List RTPTransceiver :=
  satisfy_loop remote_kind local_transceivers (get_preferred_directions remote_direction)

/-! Concrete fixtures used to evaluate the operations at specific inputs. -/

/-- A small concrete media engine: two audio codecs, three video codecs. -/
def me0 : MediaEngine :=
  { audioCodecs := [⟨10⟩, ⟨11⟩], videoCodecs := [⟨20⟩, ⟨21⟩, ⟨22⟩] }

/-- A concrete transceiver with no sender/receiver and empty preferences. -/
def mkT (mid : String) (d : RTPTransceiverDirection) (k : RTPCodecType) :
    RTPTransceiver :=
  { mid := mid, sender := none, receiver := none, direction := d, codecs := [],
    stopped := false, kind := k, media_engine := me0 }

/-- A concrete fuzzy search resolving a candidate to the first catalog entry
with the same tag (tier `Exact`), and to tier `CodecMatch.None` otherwise. -/
def exactFz : FuzzySearch := fun c catalog =>
  match catalog.find? (fun x => x.tag == c.tag) with
  | some x => (x, CodecMatch.Exact)
  | none => (c, CodecMatch.None)

/-- A sender whose `stop` and `replace_track` both succeed. -/
def senderOk : RTPSender := ⟨5, Except.ok (), Except.ok ()⟩

/-- A sender whose `stop` fails with `subResource 7`. -/
def senderStopFails : RTPSender := ⟨6, Except.error (Error.subResource 7), Except.ok ()⟩

/-- A receiver whose `stop` succeeds. -/
def receiverOk : RTPReceiver := ⟨4, Except.ok ()⟩

/-- A receiver whose `stop` fails with `subResource 9`. -/
def receiverStopFails : RTPReceiver := ⟨8, Except.error (Error.subResource 9)⟩

/-- A sequence of core operations on one transceiver, used to state that no
sequence of this file's operations ever raises the stopped flag. -/
inductive Op where
  | opSetCodecPreferences (fz : FuzzySearch) (codecs : List RTPCodecParameters)
  | opSetSender (sender : Option RTPSender) (track : Option TrackLocal)
  | opSetMid (mid : String)
  | opSetSendingTrack (track : Option TrackLocal)
  | opStop
  | opSetDirection (d : RTPTransceiverDirection)

/-- Run one core operation, keeping the post-state it leaves behind whether
the call succeeded or failed. -/
def apply_op (t : RTPTransceiver) : Op → RTPTransceiver
  | Op.opSetCodecPreferences fz cs => (set_codec_preferences fz t cs).2
  | Op.opSetSender s tr => (set_sender t s tr).2
  | Op.opSetMid m => (set_mid t m).2
  | Op.opSetSendingTrack tr => (set_sending_track t tr).2
  | Op.opStop => (stop t).2.1
  | Op.opSetDirection d => set_direction t d

/-- The sub-resource stop attempt `stop` makes for the sender slot: one
`senderStop` event when a sender is present, none otherwise. -/
def sender_stop_events (t : RTPTransceiver) : List StopEvent :=
  match t.sender with
  | some _ => [StopEvent.senderStop]
  | none => []

/-- The sub-resource stop attempt `stop` makes for the receiver slot. -/
def receiver_stop_events (t : RTPTransceiver) : List StopEvent :=
  match t.receiver with
  | some _ => [StopEvent.receiverStop]
  | none => []

/-- Fixture: a transceiver with an unassigned (empty) mid. -/
def tEmptyMid : RTPTransceiver :=
  mkT "" RTPTransceiverDirection.Sendrecv RTPCodecType.Audio

/-- Fixture: a transceiver with mid "m1", distinguishable from `tM1b`. -/
def tM1a : RTPTransceiver :=
  { mkT "m1" RTPTransceiverDirection.Sendrecv RTPCodecType.Audio with codecs := [⟨1⟩] }

/-- Fixture: a second transceiver with mid "m1" (duplicate mid by misuse). -/
def tM1b : RTPTransceiver :=
  { mkT "m1" RTPTransceiverDirection.Sendrecv RTPCodecType.Audio with codecs := [⟨2⟩] }

/-- Fixture: an audio transceiver with empty mid and empty preferences. -/
def tAudio : RTPTransceiver :=
  mkT "" RTPTransceiverDirection.Sendrecv RTPCodecType.Audio

/-- Fixture: a `Recvonly` transceiver carrying a well-behaved sender. -/
def tC1 : RTPTransceiver :=
  { mkT "" RTPTransceiverDirection.Recvonly RTPCodecType.Audio with sender := some senderOk }

/-- Fixture: a transceiver whose sender's `stop` fails and whose receiver's
`stop` would succeed. -/
def tC4 : RTPTransceiver :=
  { mkT "" RTPTransceiverDirection.Sendrecv RTPCodecType.Audio with
    sender := some senderStopFails, receiver := some receiverOk }

/-- Fixture: the pool with mids ["", "m1", "m1"] from the spec's example. -/
def poolMids : List RTPTransceiver := [tEmptyMid, tM1a, tM1b]

/-- Fixture: a one-element video pool with an unassigned `Recvonly` entry. -/
def poolC3 : List RTPTransceiver :=
  [mkT "" RTPTransceiverDirection.Recvonly RTPCodecType.Video]

/-- Fixture: a pool whose unassigned-mid transceiver sits behind an
assigned one. -/
def poolC10 : List RTPTransceiver := [tM1a, tEmptyMid]

/-! Helper lemmas about the scan-and-remove loop. -/

theorem remove_first_eq_none {α : Type} {p : α → Prop} [DecidablePred p]
    {l : List α} (h : (remove_first p l).1 = none) :
    (remove_first p l).2 = l ∧ ∀ x ∈ l, ¬ p x := by
  induction l with
  | nil => simp [remove_first]
  | cons x xs ih =>
    by_cases hx : p x
    · simp [remove_first, hx] at h
    · simp only [remove_first, hx, if_false] at h ⊢
      obtain ⟨h2, h3⟩ := ih h
      refine ⟨by simp [h2], ?_⟩
      intro y hy
      rcases List.mem_cons.mp hy with hy | hy
      · simpa [hy] using hx
      · exact h3 y hy

theorem remove_first_eq_some {α : Type} {p : α → Prop} [DecidablePred p]
    {l : List α} {a : α} (h : (remove_first p l).1 = some a) :
    p a ∧ ∃ l1 l2, l = l1 ++ a :: l2 ∧ (∀ x ∈ l1, ¬ p x) ∧
      (remove_first p l).2 = l1 ++ l2 := by
  induction l with
  | nil => simp [remove_first] at h
  | cons x xs ih =>
    by_cases hx : p x
    · simp only [remove_first, hx, if_true] at h ⊢
      obtain rfl : x = a := by simpa using h
      exact ⟨hx, [], xs, rfl, by simp, by simp [remove_first, hx]⟩
    · simp only [remove_first, hx, if_false] at h
      obtain ⟨hpa, l1, l2, hl, hl1, hr⟩ := ih h
      refine ⟨hpa, x :: l1, l2, by simp [hl], ?_, ?_⟩
      · intro y hy
        rcases List.mem_cons.mp hy with hy | hy
        · simpa [hy] using hx
        · exact hl1 y hy
      · simp [remove_first, hx, hr]

theorem remove_first_of_exists {α : Type} {p : α → Prop} [DecidablePred p]
    {l : List α} (h : ∃ x ∈ l, p x) :
    ∃ a, (remove_first p l).1 = some a := by
  induction l with
  | nil => simp at h
  | cons x xs ih =>
    by_cases hx : p x
    · exact ⟨x, by simp [remove_first, hx]⟩
    · obtain ⟨y, hy, hpy⟩ := h
      rcases List.mem_cons.mp hy with hy | hy
      · exact absurd (hy ▸ hpy) hx
      · obtain ⟨a, ha⟩ := ih ⟨y, hy, hpy⟩
        exact ⟨a, by simpa [remove_first, hx] using ha⟩

/-! Helper lemmas about the direction-preference loop. -/

theorem satisfy_loop_eq_none {k : RTPCodecType} {pool : List RTPTransceiver}
    {ds : List RTPTransceiverDirection}
    (h : (satisfy_loop k pool ds).1 = none) :
    (satisfy_loop k pool ds).2 = pool ∧
      ∀ d ∈ ds, ∀ t ∈ pool, ¬ satisfies_candidate k d t := by
  induction ds with
  | nil => simp [satisfy_loop]
  | cons d ds ih =>
    cases hr : (remove_first (satisfies_candidate k d) pool).1 with
    | some t => simp [satisfy_loop, hr] at h
    | none =>
      simp only [satisfy_loop, hr] at h ⊢
      obtain ⟨h2, h3⟩ := ih h
      obtain ⟨_, hnone⟩ := remove_first_eq_none hr
      refine ⟨h2, ?_⟩
      intro d2 hd2 t ht
      rcases List.mem_cons.mp hd2 with hd2 | hd2
      · exact hd2 ▸ hnone t ht
      · exact h3 d2 hd2 t ht

theorem satisfy_loop_eq_some {k : RTPCodecType} {pool : List RTPTransceiver}
    {ds : List RTPTransceiverDirection} {t : RTPTransceiver}
    (h : (satisfy_loop k pool ds).1 = some t) :
    ∃ ds1 d ds2, ds = ds1 ++ d :: ds2 ∧
      (∀ d2 ∈ ds1, ∀ u ∈ pool, ¬ satisfies_candidate k d2 u) ∧
      satisfies_candidate k d t ∧
      ∃ l1 l2, pool = l1 ++ t :: l2 ∧ (∀ u ∈ l1, ¬ satisfies_candidate k d u) ∧
        (satisfy_loop k pool ds).2 = l1 ++ l2 := by
  induction ds with
  | nil => simp [satisfy_loop] at h
  | cons d ds ih =>
    cases hr : (remove_first (satisfies_candidate k d) pool).1 with
    | some u =>
      simp only [satisfy_loop, hr] at h ⊢
      obtain rfl : u = t := by simpa using h
      obtain ⟨hp, l1, l2, hl, hl1, hrest⟩ := remove_first_eq_some hr
      exact ⟨[], d, ds, rfl, by simp, hp, l1, l2, hl, hl1, hrest⟩
    | none =>
      simp only [satisfy_loop, hr] at h ⊢
      obtain ⟨ds1, d2, ds2, hds, hds1, hp, l1, l2, hl, hl1, hrest⟩ := ih h
      obtain ⟨_, hnone⟩ := remove_first_eq_none hr
      refine ⟨d :: ds1, d2, ds2, by simp [hds], ?_, hp, l1, l2, hl, hl1, hrest⟩
      intro d3 hd3 u hu
      rcases List.mem_cons.mp hd3 with hd3 | hd3
      · exact hd3 ▸ hnone u hu
      · exact hds1 d3 hd3 u hu

/-! Helper lemmas about the codec loops. -/

theorem check_codec_support_eq_ok {fz : FuzzySearch}
    {catalog cs : List RTPCodecParameters}
    (h : ∀ c ∈ cs, ¬ (fz c catalog).2 = CodecMatch.None) :
    check_codec_support fz catalog cs = Except.ok () := by
  induction cs with
  | nil => rfl
  | cons c rest ih =>
    have hc := h c (List.mem_cons_self c rest)
    simp only [check_codec_support, hc, if_false]
    exact ih (fun x hx => h x (List.mem_cons_of_mem c hx))

theorem check_codec_support_eq_error {fz : FuzzySearch}
    {catalog cs : List RTPCodecParameters}
    (h : ∃ c ∈ cs, (fz c catalog).2 = CodecMatch.None) :
    check_codec_support fz catalog cs =
      Except.error Error.ErrRTPTransceiverCodecUnsupported := by
  induction cs with
  | nil => simp at h
  | cons c rest ih =>
    by_cases hc : (fz c catalog).2 = CodecMatch.None
    · simp [check_codec_support, hc]
    · obtain ⟨x, hx, hpx⟩ := h
      rcases List.mem_cons.mp hx with hx | hx
      · exact absurd (hx ▸ hpx) hc
      · simp only [check_codec_support, hc, if_false]
        exact ih ⟨x, hx, hpx⟩

theorem filter_codecs_eq_filterMap (fz : FuzzySearch)
    (catalog cs : List RTPCodecParameters) :
    filter_codecs fz catalog cs = cs.filterMap (fun c =>
      if (fz c catalog).2 = CodecMatch.None then none else some (fz c catalog).1) := by
  induction cs with
  | nil => rfl
  | cons c rest ih =>
    by_cases hc : (fz c catalog).2 = CodecMatch.None
    · simp [filter_codecs, hc, List.filterMap_cons, ih]
    · simp [filter_codecs, hc, List.filterMap_cons, ih]

/-! Helper lemmas: no core operation touches the stopped flag. -/

theorem set_sending_track_stopped (t : RTPTransceiver) (track : Option TrackLocal) :
    (set_sending_track t track).2.stopped = t.stopped := by
  rcases ht : t.sender with _ | s
  · simp only [set_sending_track, ht]
    split_ifs <;> simp [set_direction]
  · rcases hr : s.replaceTrackResult with e | u
    · simp [set_sending_track, ht, hr]
    · simp only [set_sending_track, ht, hr]
      split_ifs <;> simp [set_direction]

theorem set_codec_preferences_stopped (fz : FuzzySearch) (t : RTPTransceiver)
    (cs : List RTPCodecParameters) :
    (set_codec_preferences fz t cs).2.stopped = t.stopped := by
  unfold set_codec_preferences
  rcases check_codec_support fz (t.media_engine.get_codecs_by_kind t.kind) cs with e | u <;> rfl

theorem set_mid_stopped (t : RTPTransceiver) (m : String) :
    (set_mid t m).2.stopped = t.stopped := by
  unfold set_mid
  split_ifs <;> rfl

theorem stop_stopped (t : RTPTransceiver) :
    (stop t).2.1.stopped = t.stopped := by
  rcases ht : t.sender with _ | s
  · rcases hrc : t.receiver with _ | r
    · simp [stop, ht, hrc, set_direction]
    · rcases hr : r.stopResult with e | u <;> simp [stop, ht, hrc, hr, set_direction]
  · rcases hs : s.stopResult with e | u
    · simp [stop, ht, hs]
    · rcases hrc : t.receiver with _ | r
      · simp [stop, ht, hs, hrc, set_direction]
      · rcases hr : r.stopResult with e | u <;> simp [stop, ht, hs, hrc, hr, set_direction]

theorem apply_op_stopped (t : RTPTransceiver) (op : Op) :
    (apply_op t op).stopped = t.stopped := by
  cases op with
  | opSetCodecPreferences fz cs => exact set_codec_preferences_stopped fz t cs
  | opSetSender s tr =>
    show (set_sending_track { t with sender := s } tr).2.stopped = t.stopped
    rw [set_sending_track_stopped]
  | opSetMid m => exact set_mid_stopped t m
  | opSetSendingTrack tr => exact set_sending_track_stopped t tr
  | opStop => exact stop_stopped t
  | opSetDirection d => rfl

theorem foldl_apply_op_stopped (ops : List Op) (t : RTPTransceiver) :
    (List.foldl apply_op t ops).stopped = t.stopped := by
  induction ops generalizing t with
  | nil => rfl
  | cons op ops ih =>
    rw [List.foldl_cons, ih, apply_op_stopped]

/-- C1: when the sender's `replace_track` (if a sender is present) succeeds,
`set_sending_track` follows the tabulated direction state machine exactly:
Recvonly + track becomes Sendrecv; Inactive + track becomes Sendonly;
Sendrecv + no track becomes Recvonly; Sendonly + no track becomes Inactive;
Sendonly/Sendrecv + track is a successful no-op on the direction; and
Recvonly/Inactive + no track returns `ErrRTPTransceiverSetSendingInvalidState`
with the direction unchanged. -/
theorem C1_set_sending_track_direction_table (t : RTPTransceiver)
    (track : Option TrackLocal)
    (hrep : ∀ s, t.sender = some s → s.replaceTrackResult = Except.ok ()) :
    ((t.direction = RTPTransceiverDirection.Recvonly ∧ ¬ track = none) →
       (set_sending_track t track).1 = Except.ok () ∧
       (set_sending_track t track).2.direction = RTPTransceiverDirection.Sendrecv) ∧
    ((t.direction = RTPTransceiverDirection.Inactive ∧ ¬ track = none) →
       (set_sending_track t track).1 = Except.ok () ∧
       (set_sending_track t track).2.direction = RTPTransceiverDirection.Sendonly) ∧
    ((t.direction = RTPTransceiverDirection.Sendrecv ∧ track = none) →
       (set_sending_track t track).1 = Except.ok () ∧
       (set_sending_track t track).2.direction = RTPTransceiverDirection.Recvonly) ∧
    ((t.direction = RTPTransceiverDirection.Sendonly ∧ track = none) →
       (set_sending_track t track).1 = Except.ok () ∧
       (set_sending_track t track).2.direction = RTPTransceiverDirection.Inactive) ∧
    (((t.direction = RTPTransceiverDirection.Sendonly ∨
       t.direction = RTPTransceiverDirection.Sendrecv) ∧ ¬ track = none) →
       (set_sending_track t track).1 = Except.ok () ∧
       (set_sending_track t track).2.direction = t.direction) ∧
    (((t.direction = RTPTransceiverDirection.Recvonly ∨
       t.direction = RTPTransceiverDirection.Inactive) ∧ track = none) →
       (set_sending_track t track).1 =
         Except.error Error.ErrRTPTransceiverSetSendingInvalidState ∧
       (set_sending_track t track).2.direction = t.direction) := by
  rcases ht : t.sender with _ | s
  · rcases track with _ | tr <;> cases hd : t.direction <;>
      simp [set_sending_track, ht, hd, set_direction]
  · have hr := hrep s ht
    rcases track with _ | tr <;> cases hd : t.direction <;>
      simp [set_sending_track, ht, hr, hd, set_direction]

/-- Witness for C1: a `Recvonly` transceiver with a well-behaved sender that
receives a track ends `Sendrecv` with a successful result. -/
theorem C1_witness :
    (set_sending_track tC1 (some ⟨3⟩)).1 = Except.ok () ∧
    (set_sending_track tC1 (some ⟨3⟩)).2.direction = RTPTransceiverDirection.Sendrecv :=
  (C1_set_sending_track_direction_table tC1 (some ⟨3⟩)
      (fun s hs => by cases hs; rfl)).1 ⟨rfl, by simp⟩

/-- C2: `set_codec_preferences` is all-or-nothing: when some candidate's
fuzzy match against the per-kind catalog yields tier `CodecMatch.None` the
call returns the unsupported-codec error with the whole transceiver (in
particular its stored codecs field) unchanged, and when every candidate
matches (vacuously for the empty list) the stored codecs field becomes
exactly the input sequence and the call succeeds. -/
theorem C2_set_codec_preferences_all_or_nothing (fz : FuzzySearch)
    (t : RTPTransceiver) (codecs : List RTPCodecParameters) :
    ((∃ c ∈ codecs, (fz c (t.media_engine.get_codecs_by_kind t.kind)).2 = CodecMatch.None) →
       set_codec_preferences fz t codecs =
         (Except.error Error.ErrRTPTransceiverCodecUnsupported, t)) ∧
    ((∀ c ∈ codecs, ¬ (fz c (t.media_engine.get_codecs_by_kind t.kind)).2 = CodecMatch.None) →
       set_codec_preferences fz t codecs = (Except.ok (), { t with codecs := codecs })) := by
  constructor
  · intro h
    unfold set_codec_preferences
    rw [check_codec_support_eq_error h]
  · intro h
    unfold set_codec_preferences
    rw [check_codec_support_eq_ok h]

/-- Witness for C2: a candidate absent from the catalog makes the call fail
and leaves the transceiver unchanged. -/
theorem C2_witness :
    set_codec_preferences exactFz tAudio [⟨99⟩] =
      (Except.error Error.ErrRTPTransceiverCodecUnsupported, tAudio) :=
  (C2_set_codec_preferences_all_or_nothing exactFz tAudio [⟨99⟩]).1
    ⟨⟨99⟩, List.mem_cons_self _ _, rfl⟩

/-- C3: `satisfy_type_and_direction` searches under the direction-preference
mapping (remote Sendrecv tries local Recvonly then Sendrecv; remote Sendonly
tries only Recvonly; remote Recvonly tries Sendonly then Sendrecv; remote
Inactive or any other value yields no candidates, so the pool is returned
unchanged with no match); it returns and removes the first transceiver with
empty mid, the remote kind and exactly the tried direction, where direction
preference dominates pool insertion order; with no qualifier it returns
`none` and the pool unchanged. -/
theorem C3_satisfy_type_and_direction_spec (k : RTPCodecType)
    (rd : RTPTransceiverDirection) (pool : List RTPTransceiver) :
    (get_preferred_directions RTPTransceiverDirection.Sendrecv =
       [RTPTransceiverDirection.Recvonly, RTPTransceiverDirection.Sendrecv] ∧
     get_preferred_directions RTPTransceiverDirection.Sendonly =
       [RTPTransceiverDirection.Recvonly] ∧
     get_preferred_directions RTPTransceiverDirection.Recvonly =
       [RTPTransceiverDirection.Sendonly, RTPTransceiverDirection.Sendrecv] ∧
     get_preferred_directions RTPTransceiverDirection.Inactive = [] ∧
     get_preferred_directions RTPTransceiverDirection.Unspecified = []) ∧
    ((rd = RTPTransceiverDirection.Inactive ∨ rd = RTPTransceiverDirection.Unspecified) →
       satisfy_type_and_direction k rd pool = (none, pool)) ∧
    ((satisfy_type_and_direction k rd pool).1 = none →
       (satisfy_type_and_direction k rd pool).2 = pool ∧
       ∀ d ∈ get_preferred_directions rd, ∀ t ∈ pool, ¬ satisfies_candidate k d t) ∧
    (∀ t, (satisfy_type_and_direction k rd pool).1 = some t →
       ∃ ds1 d ds2, get_preferred_directions rd = ds1 ++ d :: ds2 ∧
         (∀ d2 ∈ ds1, ∀ u ∈ pool, ¬ satisfies_candidate k d2 u) ∧
         satisfies_candidate k d t ∧
         ∃ l1 l2, pool = l1 ++ t :: l2 ∧
           (∀ u ∈ l1, ¬ satisfies_candidate k d u) ∧
           (satisfy_type_and_direction k rd pool).2 = l1 ++ l2) := by
  refine ⟨⟨rfl, rfl, rfl, rfl, rfl⟩, ?_, ?_, ?_⟩
  · rintro (rfl | rfl) <;> rfl
  · intro h
    unfold satisfy_type_and_direction at h ⊢
    exact satisfy_loop_eq_none h
  · intro t ht
    unfold satisfy_type_and_direction at ht ⊢
    exact satisfy_loop_eq_some ht

/-- Witness for C3: a remote `Inactive` media line never matches; the pool
comes back unchanged. -/
theorem C3_witness :
    satisfy_type_and_direction RTPCodecType.Video RTPTransceiverDirection.Inactive poolC3 =
      (none, poolC3) :=
  (C3_satisfy_type_and_direction_spec RTPCodecType.Video
      RTPTransceiverDirection.Inactive poolC3).2.1 (Or.inl rfl)

/-- C4: `stop` requests the sender's `stop` first; a sender failure
propagates with the receiver never attempted and the transceiver (hence its
direction) unchanged; a receiver failure propagates with the direction
unchanged though the sender stop was already attempted; only after both
succeed is the direction forced to `Inactive`, whatever it was. -/
theorem C4_stop_sequencing (t : RTPTransceiver) :
    (∀ s e, t.sender = some s → s.stopResult = Except.error e →
       stop t = (Except.error e, t, [StopEvent.senderStop])) ∧
    ((∀ s, t.sender = some s → s.stopResult = Except.ok ()) →
       ∀ r e, t.receiver = some r → r.stopResult = Except.error e →
         stop t = (Except.error e, t, sender_stop_events t ++ [StopEvent.receiverStop])) ∧
    ((∀ s, t.sender = some s → s.stopResult = Except.ok ()) →
       (∀ r, t.receiver = some r → r.stopResult = Except.ok ()) →
       stop t = (Except.ok (), set_direction t RTPTransceiverDirection.Inactive,
         sender_stop_events t ++ receiver_stop_events t)) := by
  refine ⟨?_, ?_, ?_⟩
  · intro s e hs he
    simp [stop, hs, he]
  · intro hsok r e hr he
    rcases ht : t.sender with _ | s
    · simp [stop, ht, hr, he, sender_stop_events]
    · have hs := hsok s ht
      simp [stop, ht, hs, hr, he, sender_stop_events]
  · intro hsok hrok
    rcases ht : t.sender with _ | s <;> rcases hrc : t.receiver with _ | r
    · simp [stop, ht, hrc, sender_stop_events, receiver_stop_events]
    · have h2 := hrok r hrc
      simp [stop, ht, hrc, h2, sender_stop_events, receiver_stop_events]
    · have h1 := hsok s ht
      simp [stop, ht, hrc, h1, sender_stop_events, receiver_stop_events]
    · have h1 := hsok s ht
      have h2 := hrok r hrc
      simp [stop, ht, hrc, h1, h2, sender_stop_events, receiver_stop_events]

/-- Witness for C4: a failing sender stop short-circuits `stop` before the
receiver is touched and leaves the transceiver unchanged. -/
theorem C4_witness :
    stop tC4 = (Except.error (Error.subResource 7), tC4, [StopEvent.senderStop]) :=
  (C4_stop_sequencing tC4).1 senderStopFails (Error.subResource 7) rfl rfl

/-- C5: `find_by_mid` scans the pool in order, returns the first transceiver
whose mid equals the target exactly and removes exactly that element, the
rest keeping their relative order; with no match it returns `none` and the
pool unchanged; in particular on mids ["", "m1", "m1"] the element at index
1 is returned and the pool becomes ["", "m1"]. -/
theorem C5_find_by_mid_spec (mid : String) (pool : List RTPTransceiver) :
    ((find_by_mid mid pool).1 = none →
       (find_by_mid mid pool).2 = pool ∧ ∀ t ∈ pool, ¬ t.mid = mid) ∧
    (∀ t, (find_by_mid mid pool).1 = some t →
       t.mid = mid ∧ ∃ l1 l2, pool = l1 ++ t :: l2 ∧ (∀ u ∈ l1, ¬ u.mid = mid) ∧
         (find_by_mid mid pool).2 = l1 ++ l2) ∧
    find_by_mid "m1" poolMids = (some tM1a, [tEmptyMid, tM1b]) := by
  refine ⟨?_, ?_, ?_⟩
  · intro h
    unfold find_by_mid at h ⊢
    exact remove_first_eq_none h
  · intro t ht
    unfold find_by_mid at ht ⊢
    obtain ⟨hp, l1, l2, hl, hl1, hr⟩ := remove_first_eq_some ht
    exact ⟨hp, l1, l2, hl, hl1, hr⟩
  · rfl

/-- Witness for C5: on the ["", "m1", "m1"] pool the returned transceiver is
the first whose mid is "m1", splitting the pool around index 1. -/
theorem C5_witness :
    tM1a.mid = "m1" ∧ ∃ l1 l2, poolMids = l1 ++ tM1a :: l2 ∧
      (∀ u ∈ l1, ¬ u.mid = "m1") ∧ (find_by_mid "m1" poolMids).2 = l1 ++ l2 :=
  (C5_find_by_mid_spec "m1" poolMids).2.1 tM1a rfl

/-- C6: `get_codecs` mutates nothing (it is a pure function of the
transceiver) and returns the catalog's full per-kind list when the stored
preference list is empty — in particular after `set_codec_preferences []` —
and otherwise re-resolves each stored preference against the catalog in
stored order, dropping tier-`CodecMatch.None` entries and yielding the
resolved catalog codec (not the raw stored entry) for the others. -/
theorem C6_get_codecs_spec (fz : FuzzySearch) (t : RTPTransceiver) :
    (t.codecs = [] → get_codecs fz t = t.media_engine.get_codecs_by_kind t.kind) ∧
    (¬ t.codecs = [] →
       get_codecs fz t = t.codecs.filterMap (fun c =>
         if (fz c (t.media_engine.get_codecs_by_kind t.kind)).2 = CodecMatch.None then none
         else some (fz c (t.media_engine.get_codecs_by_kind t.kind)).1)) ∧
    (get_codecs fz (set_codec_preferences fz t []).2 =
       t.media_engine.get_codecs_by_kind t.kind) := by
  refine ⟨?_, ?_, ?_⟩
  · intro h
    simp [get_codecs, h]
  · intro h
    have hne : t.codecs.isEmpty = false := by
      cases hc : t.codecs with
      | nil => exact absurd hc h
      | cons a l => rfl
    simp only [get_codecs, hne, Bool.false_eq_true, if_false]
    exact filter_codecs_eq_filterMap fz _ _
  · rfl

/-- Witness for C6: with no stored preferences `get_codecs` is exactly the
engine's per-kind catalog. -/
theorem C6_witness :
    get_codecs exactFz tAudio = tAudio.media_engine.get_codecs_by_kind tAudio.kind :=
  (C6_get_codecs_spec exactFz tAudio).1 rfl

/-- C7: `set_mid` succeeds and stores the value exactly when the current mid
is empty; on a non-empty mid it fails with the cannot-change-mid error and
changes nothing, so `set_mid "audio0"` followed by `set_mid "audio1"` fails
on the second call with the mid still "audio0". -/
theorem C7_set_mid_one_shot (t : RTPTransceiver) (v : String) :
    (t.mid = "" → set_mid t v = (Except.ok (), { t with mid := v })) ∧
    (¬ t.mid = "" →
       set_mid t v = (Except.error Error.ErrRTPTransceiverCannotChangeMid, t)) ∧
    (t.mid = "" →
       set_mid (set_mid t "audio0").2 "audio1" =
         (Except.error Error.ErrRTPTransceiverCannotChangeMid, (set_mid t "audio0").2) ∧
       (set_mid (set_mid t "audio0").2 "audio1").2.mid = "audio0") := by
  refine ⟨?_, ?_, ?_⟩
  · intro h
    simp [set_mid, h]
  · intro h
    simp [set_mid, h]
  · intro h
    have h1 : set_mid t "audio0" = (Except.ok (), { t with mid := "audio0" }) := by
      simp [set_mid, h]
    rw [h1]
    exact ⟨by simp [set_mid], by simp [set_mid]⟩

/-- Witness for C7: the two-call scenario on a fresh transceiver. -/
theorem C7_witness :
    set_mid (set_mid tAudio "audio0").2 "audio1" =
      (Except.error Error.ErrRTPTransceiverCannotChangeMid, (set_mid tAudio "audio0").2) ∧
    (set_mid (set_mid tAudio "audio0").2 "audio1").2.mid = "audio0" :=
  (C7_set_mid_one_shot tAudio "audio1").2.2 rfl

/-- C8: the `InvalidSendingState` failure of `set_sending_track none` on a
`Recvonly` or `Inactive` transceiver is not atomic on the sender field: the
post-state is exactly the input with the sender slot cleared (direction
untouched); and every `none`-track call whose `replace_track` succeeds —
including through `set_sender` — ends with no stored sender. -/
theorem C8_sender_cleared_on_error (t : RTPTransceiver)
    (hrep : ∀ s, t.sender = some s → s.replaceTrackResult = Except.ok ()) :
    ((t.direction = RTPTransceiverDirection.Recvonly ∨
      t.direction = RTPTransceiverDirection.Inactive) →
       set_sending_track t none =
         (Except.error Error.ErrRTPTransceiverSetSendingInvalidState,
          { t with sender := none })) ∧
    (∀ s, s.replaceTrackResult = Except.ok () →
       (set_sender t (some s) none).2.sender = none) := by
  constructor
  · intro hd
    rcases ht : t.sender with _ | s
    · rcases hd with hd | hd <;> simp [set_sending_track, ht, hd]
    · have hr := hrep s ht
      rcases hd with hd | hd <;> simp [set_sending_track, ht, hr, hd]
  · intro s hs
    unfold set_sender
    cases hd : t.direction <;>
      simp [set_sending_track, hs, hd, set_direction]

/-- Witness for C8: removing the (never attached) track of a `Recvonly`
transceiver fails, yet its sender slot comes back empty. -/
theorem C8_witness :
    set_sending_track tC1 none =
      (Except.error Error.ErrRTPTransceiverSetSendingInvalidState,
       { tC1 with sender := none }) :=
  (C8_sender_cleared_on_error tC1 (fun s hs => by cases hs; rfl)).1 (Or.inl rfl)

/-- C9: `new` constructs the transceiver with `stopped = false`, and no
sequence of the operations defined in this file — `stop` included, which
only stops the sub-resources and forces the direction — ever raises the
stopped flag. -/
theorem C9_stopped_never_set (receiver : Option RTPReceiver)
    (sender : Option RTPSender) (direction : RTPTransceiverDirection)
    (kind : RTPCodecType) (codecs : List RTPCodecParameters) (me : MediaEngine)
    (ops : List Op) :
    (List.foldl apply_op
        (RTPTransceiver.new receiver sender direction kind codecs me) ops).stopped
      = false := by
  rw [foldl_apply_op_stopped]
  rfl

/-- C10: `find_by_mid` treats the empty string as an ordinary target: on a
pool containing an unassigned (empty-mid) transceiver, `find_by_mid ""`
returns and removes the first such transceiver rather than returning
`none`. -/
theorem C10_find_by_mid_empty_target (pool : List RTPTransceiver)
    (h : ∃ t ∈ pool, t.mid = "") :
    ∃ t, (find_by_mid "" pool).1 = some t ∧ t.mid = "" ∧
      ∃ l1 l2, pool = l1 ++ t :: l2 ∧ (∀ u ∈ l1, ¬ u.mid = "") ∧
        (find_by_mid "" pool).2 = l1 ++ l2 := by
  unfold find_by_mid
  obtain ⟨a, ha⟩ := remove_first_of_exists h
  obtain ⟨hpa, l1, l2, hl, hl1, hr⟩ := remove_first_eq_some ha
  exact ⟨a, ha, hpa, l1, l2, hl, hl1, hr⟩

/-- Witness for C10: a pool holding an assigned "m1" transceiver and then an
unassigned one yields the unassigned one for the empty target. -/
theorem C10_witness :
    ∃ t, (find_by_mid "" poolC10).1 = some t ∧ t.mid = "" ∧
      ∃ l1 l2, poolC10 = l1 ++ t :: l2 ∧ (∀ u ∈ l1, ¬ u.mid = "") ∧
        (find_by_mid "" poolC10).2 = l1 ++ l2 :=
  C10_find_by_mid_empty_target poolC10
    ⟨tEmptyMid, List.mem_cons_of_mem _ (List.mem_cons_self _ _), rfl⟩

end RTPT
